import Mathlib

/-!
# Verification of the nut_webgui device-state cache and dispatch layer

Shallow embedding of the shared device store, command cache, variable
write validator and error translator of `nut_webgui`
(`src/nut_webgui/src/http/commands.rs`, `src/nut_webgui/src/http/json.rs`,
`src/nut_webgui/src/http/hypermedia/semantic_classes.rs`,
`src/nut_webgui_upsmc/src/inst_cmd.rs`), together with proofs of the
behavioural claims made by the specification.

Machine conventions: Rust `Instant` timestamps become `Nat` (so
`duration_since`, which saturates, becomes truncated subtraction);
`Duration` in seconds becomes `Nat`; numeric `f64` payloads of protocol
values become `ℚ`; hash maps become association lists with
first-occurrence lookup and in-place replacing insert.
-/

namespace NutWebgui

/-- Association-list lookup: first entry whose key matches, as `HashMap::get`. -/
def mapGet {α β : Type} [DecidableEq α] (k : α) : List (α × β) → Option β
  | [] => none
  | (k0, v0) :: rest => if k0 = k then some v0 else mapGet k rest

/-- Association-list insert: replaces the first entry with the given key, or
appends a fresh entry, as `HashMap::insert`. -/
def mapInsert {α β : Type} [DecidableEq α] (k : α) (v : β) : List (α × β) → List (α × β)
  | [] => [(k, v)]
  | (k0, v0) :: rest => if k0 = k then (k, v) :: rest else (k0, v0) :: mapInsert k v rest

/-! ## Data model (from `nut_webgui_upsmc` and `src/nut_webgui/src/state.rs`) -/

/-- Command identifier (`CmdName`): an interned string. -/
abbrev CmdName := String

/-- Device name (`UpsName`): an interned string. -/
abbrev UpsName := String

/-- Variable name (`VarName`): an interned string. -/
abbrev VarName := String

/-- An instant command, from `src/nut_webgui_upsmc/src/inst_cmd.rs`:
`pub struct InstCmd { pub id: CmdName, pub desc: String }`. -/
structure InstCmd where
  id : CmdName
  desc : String
deriving DecidableEq, Repr

/-- Modelled from the spec: the protocol `Value` type of `nut_webgui_upsmc`
(its source file is not part of the provided sources). Per the spec's data
model a proposed value is either numeric or text; the numeric payload is
embedded as `ℚ`. -/
inductive Value where
  | Num (q : ℚ)
  | Text (s : String)
deriving DecidableEq

/-- Modelled from the spec: `Value::is_numeric` holds exactly on numeric values. -/
def Value.is_numeric : Value → Bool
  | .Num _ => true
  | .Text _ => false

/-- Modelled from the spec: `Value::is_text` holds exactly on text values. -/
def Value.is_text : Value → Bool
  | .Num _ => false
  | .Text _ => true

/-- Modelled from the spec: `Value::as_lossly_f64` returns the numeric
interpretation when the value is representable as a number, `none` otherwise. -/
def Value.as_lossly_f64 : Value → Option ℚ
  | .Num q => some q
  | .Text _ => none

/-- Modelled from the spec: `Value::as_str` gives the text payload of a text
value (only used behind an `is_text` guard in the validator). -/
def Value.as_str : Value → String
  | .Num _ => ""
  | .Text s => s

/-- Rust `str::trim` (used by the validator): strips leading and trailing
whitespace, embedded over the underlying character list so that it is
kernel-computable. -/
def strTrim (s : String) : String :=
  ⟨(((s.data.dropWhile Char.isWhitespace).reverse).dropWhile Char.isWhitespace).reverse⟩

/-- Rust `str::is_empty`, over the underlying character list. -/
def strIsEmpty (s : String) : Bool :=
  s.data.isEmpty

/-- The declared write contract of one RW variable
(`VarDetail` in `src/nut_webgui/src/device_entry.rs`, as matched by
`patch_var` in `src/nut_webgui/src/http/json.rs`). -/
inductive VarDetail where
  | Number
  | Str (max_len : Nat)
  | Enum (options : List Value)
  | Range (min max : Value)
deriving DecidableEq

/-- A device entry, with the fields `patch_var` / `post_command` consult:
per-variable values (source field `variables`, renamed `vars` because
`variables` is a reserved word), RW-variable constraints, and the supported
command set. -/
structure DeviceEntry where
  vars : List (VarName × Value)
  rw_variables : List (VarName × VarDetail)
  commands : List CmdName
deriving DecidableEq

/-- `CommandsCacheEntry` from the shared state:
`{ fetched_at: Instant, commands: Vec<InstCmd> }`. -/
structure CommandsCacheEntry where
  fetched_at : Nat
  commands : List InstCmd
deriving DecidableEq, Repr

/-- The shared server state behind the `RwLock`: device registry, command
cache and the shared description pool (`DescriptionKey` is derived from the
command identifier). -/
structure ServerState where
  devices : List (UpsName × DeviceEntry)
  commands_cache : List (UpsName × CommandsCacheEntry)
  shared_desc : List (String × String)
deriving DecidableEq

/-- `UpsdConfig`: daemon address plus optional credentials. -/
structure UpsdConfig where
  addr : String
  user : Option String
  pass : Option String
deriving DecidableEq, Repr

/-- The app configuration fields the embedded handlers consult. -/
structure AppConfig where
  upsd : UpsdConfig
  commands_ttl : Nat
  allow_instcmds_list : Bool
deriving DecidableEq, Repr

/-- An API-facing problem: `ProblemDetail::new(title, status)` with an
optional `with_detail`; the status is the numeric HTTP code. -/
structure ProblemDetail where
  title : String
  status : Nat
  detail : Option String := none
deriving DecidableEq, Repr

/-- `ProtocolError` kinds of `nut_webgui_upsmc::errors` that the handlers
match on; every other protocol kind is collapsed into `other`. -/
inductive ProtocolErr where
  | accessDenied
  | unknownUps
  | other (tag : Nat)
deriving DecidableEq, Repr

/-- `ErrorKind` of `nut_webgui_upsmc::errors` as matched by the handlers:
protocol errors, I/O errors, request timeouts, and a catch-all for every
other kind. -/
inductive ErrorKind where
  | protocolError (inner : ProtocolErr)
  | ioError (tag : Nat)
  | requestTimeout
  | other (tag : Nat)
deriving DecidableEq, Repr

/-- `ProblemDetail::new(title, status)`. -/
def ProblemDetail.new (title : String) (status : Nat) : ProblemDetail :=
  ⟨title, status, none⟩

/-- `ProblemDetail::with_detail`. -/
def ProblemDetail.with_detail (p : ProblemDetail) (d : String) : ProblemDetail :=
  { p with detail := some d }

/-! ## Error translation -/

/-- The inline error match of `update_commands`
(`src/nut_webgui/src/http/commands.rs` lines 47-65, repeated verbatim at
71-89): `AccessDenied` and `UnknownUps` protocol errors and I/O or timeout
failures get fixed problems; everything else falls to `err.into()`, whose
conversion (defined outside the provided sources) is passed in as
`classify`. -/
def update_commands_err_map (classify : ErrorKind → ProblemDetail) :
    ErrorKind → ProblemDetail
  | .protocolError .accessDenied => ProblemDetail.new "Access denied" 401
  | .protocolError .unknownUps => ProblemDetail.new "Device not found" 404
  | .ioError _ => ProblemDetail.new "UPS daemon unreachable" 502
  | .requestTimeout => ProblemDetail.new "UPS daemon unreachable" 502
  | e => classify e

/-- The inline error match of `get_instcmds`
(`src/nut_webgui/src/http/json.rs` lines 250-268, repeated verbatim at
274-292), embedded separately from `update_commands_err_map` because the
source duplicates the match arms at each call site. -/
def get_instcmds_err_map (classify : ErrorKind → ProblemDetail) :
    ErrorKind → ProblemDetail
  | .protocolError .accessDenied => ProblemDetail.new "Access denied" 401
  | .protocolError .unknownUps => ProblemDetail.new "Device not found" 404
  | .ioError _ => ProblemDetail.new "UPS daemon unreachable" 502
  | .requestTimeout => ProblemDetail.new "UPS daemon unreachable" 502
  | e => classify e

/-- Modelled from the spec: the `From<nut_webgui_upsmc::Error> for
ProblemDetail` conversion invoked by the `?` operator at the instant-command,
variable-write and forced-shutdown call sites lives outside the provided
sources; per spec section 4.5 it applies the same fixed mapping uniformly,
with the underlying error's own classification (`classify`) as the
pass-through arm. -/
def problemFromError (classify : ErrorKind → ProblemDetail) :
    ErrorKind → ProblemDetail
  | .protocolError .accessDenied => ProblemDetail.new "Access denied" 401
  | .protocolError .unknownUps => ProblemDetail.new "Device not found" 404
  | .ioError _ => ProblemDetail.new "UPS daemon unreachable" 502
  | .requestTimeout => ProblemDetail.new "UPS daemon unreachable" 502
  | e => classify e

/-- The problem returned when credentials are missing
(`commands.rs` 38-42, `json.rs` 32-36). -/
def insufficientConfig : ProblemDetail :=
  (ProblemDetail.new "Insufficient upsd configuration" 401).with_detail
    "Operation requires valid username and password to be configured."

/-- The `require_auth_config!` macro of `json.rs` (lines 24-38): yields
`(socket address, user, pass)` when both credentials are configured, the
`insufficientConfig` problem otherwise. -/
def require_auth_config (upsd : UpsdConfig) :
    Except ProblemDetail (String × String × String) :=
  match upsd.pass, upsd.user with
  | some pass, some user => .ok (upsd.addr, user, pass)
  | _, _ => .error insufficientConfig

/-! ## Protocol Client oracle and call counting -/

/-- One round trip's worth of Protocol Client behaviour, as an oracle: what
`connect`, `list_instcmds`, `instcmd`, `set_var` and `fsd` would return if
invoked (`none` = success for the unit-returning calls). -/
structure NetOracle where
  connectResult : Option ErrorKind
  listResult : Except ErrorKind (List InstCmd)
  instcmdResult : Option ErrorKind
  setVarResult : Option ErrorKind
  fsdResult : Option ErrorKind

/-- Counts of each Protocol Client invocation made during one handler run. -/
structure NetCalls where
  connects : Nat
  lists : Nat
  instcmds : Nat
  setvars : Nat
  fsds : Nat
  closes : Nat
deriving DecidableEq, Repr

/-- No Protocol Client invocation at all. -/
def NetCalls.zero : NetCalls := ⟨0, 0, 0, 0, 0, 0⟩

/-- Outcome of a handler over the shared store: its result, the state after
the run, and the Protocol Client invocations it made. -/
structure OpOutcome (α : Type) where
  result : Except ProblemDetail α
  state : ServerState
  calls : NetCalls

/-! ## Command Cache Manager over the shared store (`commands.rs`) -/

/-- `get_cached_commands` (`commands.rs` 11-21): under the read lock, look
the device up in `commands_cache`; on a hit return the cached commands with
`stale = now.duration_since(fetched_at) >= ttl` (`duration_since`
saturates, hence truncated subtraction); on a miss return `([], true)`.
No Protocol Client access, no error path. -/
def get_cached_commands (cfg : AppConfig) (now : Nat) (state : ServerState)
    (ups_name : UpsName) : List InstCmd × Bool :=
  let ttl := cfg.commands_ttl
  match mapGet ups_name state.commands_cache with
  | some entry => (entry.commands, decide (now - entry.fetched_at ≥ ttl))
  | none => ([], true)

/-- The write-section body of `update_commands` (`commands.rs` 93-109):
replace the cache entry with a fresh `CommandsCacheEntry`, set the device's
command set to exactly the refreshed ids (when the device is registered),
and upsert every refreshed command's description into the shared pool. -/
def apply_refresh (now : Nat) (state : ServerState) (ups_name : UpsName)
    (cmds : List InstCmd) : ServerState :=
  { devices :=
      match mapGet ups_name state.devices with
      | some device =>
          mapInsert ups_name { device with commands := cmds.map InstCmd.id }
            state.devices
      | none => state.devices
    commands_cache :=
      mapInsert ups_name ⟨now, cmds⟩ state.commands_cache
    shared_desc :=
      cmds.foldl (fun m c => mapInsert c.id c.desc m) state.shared_desc }

/-- `update_commands` (`commands.rs` 23-111): require credentials (else the
`insufficientConfig` problem before any connect), connect, list the instant
commands, close best-effort, then apply the refresh under the write lock;
each failure is translated by the inline `update_commands_err_map` and
leaves the state untouched. `now` is the `Instant::now()` taken inside the
write section. -/
def update_commands (classify : ErrorKind → ProblemDetail) (cfg : AppConfig)
    (net : NetOracle) (now : Nat) (state : ServerState) (ups_name : UpsName) :
    OpOutcome (List InstCmd) :=
  match cfg.upsd.pass, cfg.upsd.user with
  | some _, some _ =>
    match net.connectResult with
    | some err =>
        ⟨.error (update_commands_err_map classify err), state, ⟨1, 0, 0, 0, 0, 0⟩⟩
    | none =>
      match net.listResult with
      | .error err =>
          ⟨.error (update_commands_err_map classify err), state, ⟨1, 1, 0, 0, 0, 0⟩⟩
      | .ok cmds =>
          ⟨.ok cmds, apply_refresh now state ups_name cmds, ⟨1, 1, 0, 0, 0, 1⟩⟩
  | _, _ => ⟨.error insufficientConfig, state, NetCalls.zero⟩

/-! ## The isolated json-layer command cache (`json.rs` 40-80) -/

/-- The global `COMMAND_CACHE` of `json.rs`: device name to
`(expiry instant, commands)`. -/
abbrev JsonCmdCache := List (UpsName × (Nat × List InstCmd))

/-- Outcome of `get_commands_cached`: the returned commands (this function
has no error path), the cache after the run, and the Protocol Client
invocations made. -/
structure JsonCacheOutcome where
  cmds : List InstCmd
  cache : JsonCmdCache
  calls : NetCalls

/-- The slow path of `get_commands_cached` (`json.rs` 56-79), reached when
the entry is absent or expired or a refresh is forced: with credentials
absent, return an empty list (no problem is raised, no connect happens); on
connect failure return an empty list leaving the cache untouched; otherwise
take the listed commands (an empty list if the list request failed), stamp
them with expiry `now + (1 if empty else 2)` seconds and store them. -/
def get_commands_cached_refresh (cfg : AppConfig) (net : NetOracle) (now : Nat)
    (cache : JsonCmdCache) (ups_name : UpsName) : JsonCacheOutcome :=
  match cfg.upsd.user, cfg.upsd.pass with
  | some _, some _ =>
    match net.connectResult with
    | some _ => ⟨[], cache, ⟨1, 0, 0, 0, 0, 0⟩⟩
    | none =>
      let cmds := match net.listResult with | .ok v => v | .error _ => []
      let ttl := if cmds.isEmpty then 1 else 2
      let exp := now + ttl
      ⟨cmds, mapInsert ups_name (exp, cmds) cache, ⟨1, 1, 0, 0, 0, 1⟩⟩
  | _, _ => ⟨[], cache, NetCalls.zero⟩

/-- `get_commands_cached` (`json.rs` 42-80): unless forced, a cache hit with
`exp > now` returns the cached commands immediately with no Protocol Client
invocation; every other case goes through `get_commands_cached_refresh`. -/
def get_commands_cached (cfg : AppConfig) (net : NetOracle) (now : Nat)
    (cache : JsonCmdCache) (ups_name : UpsName) (force : Bool) :
    JsonCacheOutcome :=
  match force, mapGet ups_name cache with
  | false, some (exp, cmds) =>
    if now < exp then ⟨cmds, cache, NetCalls.zero⟩
    else get_commands_cached_refresh cfg net now cache ups_name
  | false, none => get_commands_cached_refresh cfg net now cache ups_name
  | true, _ => get_commands_cached_refresh cfg net now cache ups_name

/-! ## Handlers (`json.rs`) -/

/-- Modelled from the spec: the `Display` rendering of a protocol value,
used only inside problem detail strings. -/
def Value.display : Value → String
  | .Num q => toString q
  | .Text s => s

/-- `post_command` (`json.rs` 177-225): credentials check, then device and
supported-command check under the read lock, then connect, `instcmd`, and a
best-effort close; `?`-propagated client errors go through
`problemFromError`. A success is `202 Accepted`. -/
def post_command (classify : ErrorKind → ProblemDetail) (cfg : AppConfig)
    (net : NetOracle) (state : ServerState) (ups_name : UpsName)
    (instcmd : CmdName) : OpOutcome Nat :=
  match require_auth_config cfg.upsd with
  | .error p => ⟨.error p, state, NetCalls.zero⟩
  | .ok _ =>
    match mapGet ups_name state.devices with
    | some device =>
      if instcmd ∈ device.commands then
        match net.connectResult with
        | some err => ⟨.error (problemFromError classify err), state, ⟨1, 0, 0, 0, 0, 0⟩⟩
        | none =>
          match net.instcmdResult with
          | some err => ⟨.error (problemFromError classify err), state, ⟨1, 0, 1, 0, 0, 1⟩⟩
          | none => ⟨.ok 202, state, ⟨1, 0, 1, 0, 0, 1⟩⟩
      else
        ⟨.error ((ProblemDetail.new "Invalid INSTCMD" 400).with_detail
          ("'" ++ instcmd ++ "' is not listed as supported command on device details.")),
          state, NetCalls.zero⟩
    | none => ⟨.error (ProblemDetail.new "Device not found" 404), state, NetCalls.zero⟩

/-- `get_instcmds` (`json.rs` 235-303): gated by `allow_instcmds_list`,
then credentials, then connect and `list_instcmds` with the duplicated
inline error match (`get_instcmds_err_map`); close is best-effort and only
reached on success. -/
def get_instcmds (classify : ErrorKind → ProblemDetail) (cfg : AppConfig)
    (net : NetOracle) (ups_name : UpsName) :
    Except ProblemDetail (List InstCmd) × NetCalls :=
  if cfg.allow_instcmds_list = false then
    (.error (ProblemDetail.new "Target resource not found" 404), NetCalls.zero)
  else
    match require_auth_config cfg.upsd with
    | .error p => (.error p, NetCalls.zero)
    | .ok _ =>
      match net.connectResult with
      | some err => (.error (get_instcmds_err_map classify err), ⟨1, 0, 0, 0, 0, 0⟩)
      | none =>
        match net.listResult with
        | .error err => (.error (get_instcmds_err_map classify err), ⟨1, 1, 0, 0, 0, 0⟩)
        | .ok cmds => (.ok cmds, ⟨1, 1, 0, 0, 0, 1⟩)

/-- `post_fsd` (`json.rs` 305-339): credentials check, device existence
check under the read lock, then connect, `fsd`, best-effort close;
`?`-propagated client errors go through `problemFromError`. -/
def post_fsd (classify : ErrorKind → ProblemDetail) (cfg : AppConfig)
    (net : NetOracle) (state : ServerState) (ups_name : UpsName) :
    OpOutcome Nat :=
  match require_auth_config cfg.upsd with
  | .error p => ⟨.error p, state, NetCalls.zero⟩
  | .ok _ =>
    if (mapGet ups_name state.devices).isSome then
      match net.connectResult with
      | some err => ⟨.error (problemFromError classify err), state, ⟨1, 0, 0, 0, 0, 0⟩⟩
      | none =>
        match net.fsdResult with
        | some err => ⟨.error (problemFromError classify err), state, ⟨1, 0, 0, 0, 1, 1⟩⟩
        | none => ⟨.ok 202, state, ⟨1, 0, 0, 0, 1, 1⟩⟩
    else ⟨.error (ProblemDetail.new "Device not found" 404), state, NetCalls.zero⟩

/-- The validation block of `patch_var` (`json.rs` 350-465), performed under
the read lock before any Protocol Client access: device lookup, RW-variable
lookup, and the per-`VarDetail` value checks, exactly as in the source
(note the string-length check compares the TRIMMED value's length against
`max_len`). -/
def patch_var_validate (state : ServerState) (ups_name : UpsName)
    (var_name : VarName) (value : Value) : Except ProblemDetail Unit :=
  match mapGet ups_name state.devices with
  | some device =>
    match mapGet var_name device.rw_variables with
    | some .Number =>
      if value.is_numeric then .ok ()
      else .error ((ProblemDetail.new "Invalid value type" 400).with_detail
        ("'" ++ var_name ++ "' expects a numeric type, but the provided value is not a number."))
    | some (.Str max_len) =>
      if value.is_text then
        let value_str := value.as_str
        let trimmed := strTrim value_str
        if strIsEmpty trimmed then
          .error ((ProblemDetail.new "Empty value" 400).with_detail
            "Value cannot be empty or consist of only whitespaces.")
        else if trimmed.length > max_len then
          .error ((ProblemDetail.new "Out of range" 400).with_detail
            ("Maximum allowed string length is " ++ toString max_len ++ "."))
        else .ok ()
      else
        .error ((ProblemDetail.new "Invalid value type" 400).with_detail
          ("'" ++ var_name ++ "' expects a string type, but the provided value is not a string."))
    | some (.Enum options) =>
      if value ∈ options then .ok ()
      else
        .error ((ProblemDetail.new "Invalid option" 400).with_detail
          ("'" ++ var_name ++ "' is an enum type, allowed options: "
            ++ toString (options.map Value.as_str)))
    | some (.Range mn mx) =>
      if value.is_numeric then
        match mn.as_lossly_f64, mx.as_lossly_f64 with
        | some mnq, some mxq =>
          let valueq := (value.as_lossly_f64).getD 0
          if mnq ≤ valueq ∧ valueq ≤ mxq then .ok ()
          else
            .error ((ProblemDetail.new "Out of range" 400).with_detail
              ("'" ++ var_name ++ "' is not within the acceptable range ["
                ++ toString mnq ++ ", " ++ toString mxq ++ "]"))
        | _, _ =>
          .error ((ProblemDetail.new "Malformed driver response" 500).with_detail
            "Cannot process request since the reported min-max values by ups device are not number.")
      else
        .error ((ProblemDetail.new "Invalid value type" 400).with_detail
          ("'" ++ var_name ++ "' expects a numeric value between " ++ mn.display
            ++ " and " ++ mx.display ++ ", but the provided value is not a number."))
    | none =>
      .error ((ProblemDetail.new "Invalid RW variable" 400).with_detail
        ("'" ++ var_name ++ "' is not a valid writeable variable."))
  | none => .error (ProblemDetail.new "Device not found" 404)

/-- `patch_var` (`json.rs` 341-484): credentials check, the validation block
(`patch_var_validate`), then connect, `set_var`, best-effort close;
`?`-propagated client errors go through `problemFromError`. -/
def patch_var (classify : ErrorKind → ProblemDetail) (cfg : AppConfig)
    (net : NetOracle) (state : ServerState) (ups_name : UpsName)
    (var_name : VarName) (value : Value) : OpOutcome Nat :=
  match require_auth_config cfg.upsd with
  | .error p => ⟨.error p, state, NetCalls.zero⟩
  | .ok _ =>
    match patch_var_validate state ups_name var_name value with
    | .error p => ⟨.error p, state, NetCalls.zero⟩
    | .ok _ =>
      match net.connectResult with
      | some err => ⟨.error (problemFromError classify err), state, ⟨1, 0, 0, 0, 0, 0⟩⟩
      | none =>
        match net.setVarResult with
        | some err => ⟨.error (problemFromError classify err), state, ⟨1, 0, 0, 1, 0, 1⟩⟩
        | none => ⟨.ok 202, state, ⟨1, 0, 0, 1, 0, 1⟩⟩

/-! ## Semantic classes (`semantic_classes.rs`) -/

/-- `SemanticType` (`semantic_classes.rs` 5-12). -/
inductive SemanticType where
  | None
  | Info
  | Error
  | Warning
  | Success
deriving DecidableEq, Repr

/-- The threshold level computed by `SemanticType::from_range` and
`from_range_inverted` (`semantic_classes.rs` lines 95 and 110):
`(value >= from) as u8 + (value >= to) as u8`. The source binders `from`
and `to` are Lean keywords, so they are named `lo` and `hi` here. -/
def rangeLevel {α : Type} [LinearOrder α] (value lo hi : α) : Nat :=
  (if value ≥ lo then 1 else 0) + (if value ≥ hi then 1 else 0)

/-- `SemanticType::from_range` (`semantic_classes.rs` 89-103); the
`unreachable!()` arm is embedded as `none`, so the source's panic-freedom is
the statement that the result is always `some`. -/
def SemanticType.from_range {α : Type} [LinearOrder α] (value lo hi : α) :
    Option SemanticType :=
  match rangeLevel value lo hi with
  | 0 => some .Success
  | 1 => some .Warning
  | 2 => some .Error
  | _ => none

/-- `SemanticType::from_range_inverted` (`semantic_classes.rs` 105-118). -/
def SemanticType.from_range_inverted {α : Type} [LinearOrder α] (value lo hi : α) :
    Option SemanticType :=
  match rangeLevel value lo hi with
  | 0 => some .Error
  | 1 => some .Warning
  | 2 => some .Success
  | _ => none

/-! ## Concrete fixtures used by the closed witnesses and counterexamples -/

/-- A concrete instant command. -/
def cmdSelfTest : InstCmd := ⟨"test.battery.start", "Start a battery test"⟩

/-- A fully configured app: address, credentials, 30 s commands TTL,
instcmds listing allowed. -/
def cfgFull : AppConfig := ⟨⟨"localhost:3493", some "admin", some "secret"⟩, 30, true⟩

/-- A configuration missing the password. -/
def cfgNoPass : AppConfig := ⟨⟨"localhost:3493", some "admin", none⟩, 30, true⟩

/-- A device exposing one command and one RW variable of each kind. -/
def deviceEx : DeviceEntry :=
  { vars := []
    rw_variables :=
      [ ("input.voltage", .Range (.Num 90) (.Num 280))
      , ("ups.id", .Str 5)
      , ("ups.beeper.status", .Enum [.Text "enabled", .Text "disabled"])
      , ("battery.low", .Number)
      , ("battery.charge.low", .Range (.Text "n/a") (.Num 20)) ]
    commands := ["test.battery.start"] }

/-- A server state with one registered device and one cached command entry
fetched at instant 3. -/
def stateEx : ServerState :=
  ⟨[("myups", deviceEx)], [("myups", ⟨3, [cmdSelfTest]⟩)], [("old.key", "old desc")]⟩

/-- The empty server state. -/
def emptyState : ServerState := ⟨[], [], []⟩

/-- A Protocol Client oracle for which every call succeeds. -/
def netOk : NetOracle := ⟨none, .ok [cmdSelfTest], none, none, none⟩

/-- A Protocol Client oracle whose `connect` fails with an I/O error. -/
def netConnFail : NetOracle :=
  ⟨some (.ioError 0), .ok [cmdSelfTest], none, none, none⟩

/-- A Protocol Client oracle whose `connect` succeeds but whose
`list_instcmds` fails with an I/O error. -/
def netListFail : NetOracle := ⟨none, .error (.ioError 0), none, none, none⟩

/-- A stand-in for the unknown `err.into()` classification in closed
witnesses. -/
def classifyEx : ErrorKind → ProblemDetail :=
  fun _ => ProblemDetail.new "Internal server error" 500

/-- A Protocol Client oracle whose `connect` fails with an access-denied
protocol error. -/
def netAccessDenied : NetOracle :=
  ⟨some (.protocolError .accessDenied), .ok [], none, none, none⟩

/-! ## Helper lemmas about association lists -/

@[simp]
theorem mapGet_mapInsert_self {α β : Type} [DecidableEq α] (k : α) (v : β) (m : List (α × β)) :
    mapGet k (mapInsert k v m) = some v := by
  induction m with
  | nil => simp [mapGet, mapInsert]
  | cons hd tl ih =>
    obtain ⟨k0, v0⟩ := hd
    by_cases h : k0 = k <;> simp [mapGet, mapInsert, h, ih]

theorem mapGet_mapInsert_ne {α β : Type} [DecidableEq α] {k k' : α} (v : β) (m : List (α × β))
    (h : k' ≠ k) : mapGet k' (mapInsert k v m) = mapGet k' m := by
  have hne : k ≠ k' := fun hk => h hk.symm
  induction m with
  | nil => simp [mapGet, mapInsert, hne]
  | cons hd tl ih =>
    obtain ⟨k0, v0⟩ := hd
    by_cases hk : k0 = k
    · subst hk
      simp [mapGet, mapInsert, hne]
    · by_cases hk' : k0 = k' <;> simp [mapGet, mapInsert, hk, hk', ih, h]

theorem length_mapInsert {α β : Type} [DecidableEq α] (k : α) (v : β) (m : List (α × β)) :
    m.length ≤ (mapInsert k v m).length := by
  induction m with
  | nil => simp [mapInsert]
  | cons hd tl ih =>
    obtain ⟨k0, v0⟩ := hd
    by_cases h : k0 = k
    · simp [mapInsert, h]
    · simp only [mapInsert, h, if_false, List.length_cons]
      omega

theorem mapGet_mapInsert_isSome {α β : Type} [DecidableEq α] (k k' : α) (v : β)
    (m : List (α × β)) (h : (mapGet k' m).isSome) :
    (mapGet k' (mapInsert k v m)).isSome := by
  by_cases hk : k' = k
  · subst hk; simp
  · rwa [mapGet_mapInsert_ne v m hk]

/-- Folding description upserts over a command list keeps every present key
present. -/
theorem mapGet_foldl_desc_isSome (l : List InstCmd) (m : List (String × String))
    (k : String) (h : (mapGet k m).isSome) :
    (mapGet k (l.foldl (fun m c => mapInsert c.id c.desc m) m)).isSome := by
  induction l generalizing m with
  | nil => exact h
  | cons c tl ih => exact ih _ (mapGet_mapInsert_isSome c.id k c.desc m h)

/-- Folding description upserts over a command list never decreases the
pool's size. -/
theorem length_foldl_desc (l : List InstCmd) (m : List (String × String)) :
    m.length ≤ (l.foldl (fun m c => mapInsert c.id c.desc m) m).length := by
  induction l generalizing m with
  | nil => exact le_refl _
  | cons c tl ih =>
    exact le_trans (length_mapInsert c.id c.desc m) (ih _)

/-- Any sequence of command refreshes keeps every present description key
present. -/
theorem refresh_seq_isSome (ops : List (Nat × UpsName × List InstCmd))
    (state : ServerState) (k0 : String)
    (h : (mapGet k0 state.shared_desc).isSome) :
    (mapGet k0 (ops.foldl (fun s op => apply_refresh op.1 s op.2.1 op.2.2)
      state).shared_desc).isSome := by
  induction ops generalizing state with
  | nil => exact h
  | cons op tl ih =>
    exact ih _ (mapGet_foldl_desc_isSome op.2.2 state.shared_desc k0 h)

/-- Any sequence of command refreshes never decreases the description pool's
size. -/
theorem refresh_seq_length (ops : List (Nat × UpsName × List InstCmd))
    (state : ServerState) :
    state.shared_desc.length
      ≤ ((ops.foldl (fun s op => apply_refresh op.1 s op.2.1 op.2.2)
          state).shared_desc).length := by
  induction ops generalizing state with
  | nil => exact le_refl _
  | cons op tl ih =>
    rw [List.foldl_cons]
    exact le_trans (length_foldl_desc op.2.2 state.shared_desc)
      (ih (apply_refresh op.1 state op.2.1 op.2.2))

/-! ## Claim theorems -/

/-- C5: for every device name, `get_cached_commands` returns an empty
sequence paired with `is_stale = true` when no cache entry exists, and the
cached commands paired with `is_stale = (now - fetched_at) ≥ ttl` when one
does — the same cached data whether fresh or stale. Its signature takes no
Protocol Client oracle and returns no problem, so it cannot contact the
daemon and has no error path. -/
theorem C5_read_commands (cfg : AppConfig) (now : Nat) (state : ServerState)
    (d : UpsName) :
    (mapGet d state.commands_cache = none →
      get_cached_commands cfg now state d = ([], true)) ∧
    (∀ e, mapGet d state.commands_cache = some e →
      get_cached_commands cfg now state d
        = (e.commands, decide (now - e.fetched_at ≥ cfg.commands_ttl))) := by
  constructor
  · intro h
    simp [get_cached_commands, h]
  · intro e h
    simp [get_cached_commands, h]

/-- Closed witness for C5: on the concrete state, a missing device yields
`([], true)`; the cached device yields its cached commands, stale at
instant 40 and fresh at instant 10 (TTL 30, fetched at 3). -/
theorem C5_read_commands_witness :
    get_cached_commands cfgFull 40 stateEx "ghost" = ([], true) ∧
    get_cached_commands cfgFull 40 stateEx "myups" = ([cmdSelfTest], true) ∧
    get_cached_commands cfgFull 10 stateEx "myups" = ([cmdSelfTest], false) := by
  refine ⟨(C5_read_commands cfgFull 40 stateEx "ghost").1 (by decide), ?_, ?_⟩
  · exact (C5_read_commands cfgFull 40 stateEx "myups").2 ⟨3, [cmdSelfTest]⟩ (by decide)
  · exact (C5_read_commands cfgFull 10 stateEx "myups").2 ⟨3, [cmdSelfTest]⟩ (by decide)

/-- C8: when the caller does not force a refresh and the json command cache
holds an entry that is still fresh (`now < exp`), `get_commands_cached`
returns the cached commands with the cache unchanged and zero Protocol
Client invocations (no connect, list or close). -/
theorem C8_fresh_cache_fast_path (cfg : AppConfig) (net : NetOracle)
    (now : Nat) (cache : JsonCmdCache) (ups_name : UpsName) (exp : Nat)
    (cmds : List InstCmd) (hget : mapGet ups_name cache = some (exp, cmds))
    (hfresh : now < exp) :
    get_commands_cached cfg net now cache ups_name false
      = ⟨cmds, cache, NetCalls.zero⟩ := by
  simp [get_commands_cached, hget, hfresh]

/-- Closed witness for C8: a fresh entry (expiry 20, now 10) is served from
the cache with zero client calls, even against an oracle whose connect
would fail. -/
theorem C8_fresh_cache_fast_path_witness :
    get_commands_cached cfgFull netConnFail 10 [("myups", (20, [cmdSelfTest]))]
        "myups" false
      = ⟨[cmdSelfTest], [("myups", (20, [cmdSelfTest]))], NetCalls.zero⟩ :=
  C8_fresh_cache_fast_path cfgFull netConnFail 10 _ "myups" 20 [cmdSelfTest]
    (by decide) (by decide)

/-- C10: `SemanticType::from_range` and `from_range_inverted` are total for
every value of a linearly ordered type: the computed level is always at
most 2, the `unreachable!()` arm (embedded as `none`) is never taken, and
when `lo ≤ hi` the result is `Success` (resp. `Error` for the inverted
variant) below `lo`, `Warning` on `[lo, hi)`, and `Error` (resp. `Success`)
at and above `hi`. -/
theorem C10_semantic_range_total {α : Type} [LinearOrder α] (value lo hi : α) :
    rangeLevel value lo hi ≤ 2 ∧
    (SemanticType.from_range value lo hi).isSome = true ∧
    (SemanticType.from_range_inverted value lo hi).isSome = true ∧
    (lo ≤ hi → value < lo →
      SemanticType.from_range value lo hi = some .Success ∧
      SemanticType.from_range_inverted value lo hi = some .Error) ∧
    (lo ≤ hi → lo ≤ value → value < hi →
      SemanticType.from_range value lo hi = some .Warning ∧
      SemanticType.from_range_inverted value lo hi = some .Warning) ∧
    (lo ≤ hi → hi ≤ value →
      SemanticType.from_range value lo hi = some .Error ∧
      SemanticType.from_range_inverted value lo hi = some .Success) := by
  by_cases h1 : lo ≤ value
  · by_cases h2 : hi ≤ value
    · have hl : rangeLevel value lo hi = 2 := by
        simp [rangeLevel, ge_iff_le, h1, h2]
      refine ⟨by omega, ?_, ?_, ?_, ?_, ?_⟩
      · simp [SemanticType.from_range, hl]
      · simp [SemanticType.from_range_inverted, hl]
      · intro _ h; exact absurd h1 (not_le.mpr h)
      · intro _ _ h; exact absurd h2 (not_le.mpr h)
      · intro _ _
        exact ⟨by simp [SemanticType.from_range, hl],
          by simp [SemanticType.from_range_inverted, hl]⟩
    · have hl : rangeLevel value lo hi = 1 := by
        simp [rangeLevel, ge_iff_le, h1, h2]
      refine ⟨by omega, ?_, ?_, ?_, ?_, ?_⟩
      · simp [SemanticType.from_range, hl]
      · simp [SemanticType.from_range_inverted, hl]
      · intro _ h; exact absurd h1 (not_le.mpr h)
      · intro _ _ _
        exact ⟨by simp [SemanticType.from_range, hl],
          by simp [SemanticType.from_range_inverted, hl]⟩
      · intro _ h; exact absurd h h2
  · by_cases h2 : hi ≤ value
    · have hl : rangeLevel value lo hi = 1 := by
        simp [rangeLevel, ge_iff_le, h1, h2]
      refine ⟨by omega, ?_, ?_, ?_, ?_, ?_⟩
      · simp [SemanticType.from_range, hl]
      · simp [SemanticType.from_range_inverted, hl]
      · intro hle _; exact absurd (le_trans hle h2) h1
      · intro _ h _; exact absurd h h1
      · intro hle _; exact absurd (le_trans hle h2) h1
    · have hl : rangeLevel value lo hi = 0 := by
        simp [rangeLevel, ge_iff_le, h1, h2]
      refine ⟨by omega, ?_, ?_, ?_, ?_, ?_⟩
      · simp [SemanticType.from_range, hl]
      · simp [SemanticType.from_range_inverted, hl]
      · intro _ _
        exact ⟨by simp [SemanticType.from_range, hl],
          by simp [SemanticType.from_range_inverted, hl]⟩
      · intro _ h _; exact absurd h h1
      · intro _ h; exact absurd h h2

/-- Closed witness for C10 at integer thresholds 3 and 5: value 1 is below
the band, 4 inside it, 7 above it. -/
theorem C10_semantic_range_total_witness :
    SemanticType.from_range (1 : ℤ) 3 5 = some .Success ∧
    SemanticType.from_range (4 : ℤ) 3 5 = some .Warning ∧
    SemanticType.from_range (7 : ℤ) 3 5 = some .Error ∧
    SemanticType.from_range_inverted (7 : ℤ) 3 5 = some .Success := by
  refine ⟨((C10_semantic_range_total (1 : ℤ) 3 5).2.2.2.1 (by decide) (by decide)).1,
    ((C10_semantic_range_total (4 : ℤ) 3 5).2.2.2.2.1 (by decide) (by decide) (by decide)).1,
    ((C10_semantic_range_total (7 : ℤ) 3 5).2.2.2.2.2 (by decide) (by decide)).1,
    ((C10_semantic_range_total (7 : ℤ) 3 5).2.2.2.2.2 (by decide) (by decide)).2⟩

/-- C9: description-pool upserts are last-write-wins — after upserting key
K with value V1 then V2, a lookup of K returns V2 — and the pool only
grows: `apply_refresh`, the single operation of the embedded core that
touches the shared description pool, keeps every present key present and
never decreases the pool's size, over every sequence of refreshes. -/
theorem C9_desc_pool_lww_grow_only (m : List (String × String))
    (k v1 v2 : String) (state : ServerState) :
    mapGet k (mapInsert k v2 (mapInsert k v1 m)) = some v2 ∧
    (∀ (ops : List (Nat × UpsName × List InstCmd)) (k0 : String),
      (mapGet k0 state.shared_desc).isSome →
      (mapGet k0 (ops.foldl (fun s op => apply_refresh op.1 s op.2.1 op.2.2)
        state).shared_desc).isSome) ∧
    (∀ (ops : List (Nat × UpsName × List InstCmd)),
      state.shared_desc.length
        ≤ ((ops.foldl (fun s op => apply_refresh op.1 s op.2.1 op.2.2)
            state).shared_desc).length) := by
  refine ⟨mapGet_mapInsert_self k v2 _, ?_, ?_⟩
  · intro ops k0 h
    exact refresh_seq_isSome ops state k0 h
  · intro ops
    exact refresh_seq_length ops state

/-- Closed witness for C9: upserting `ups.id` with "V1" then "V2" into the
empty pool makes a lookup return "V2", and the concrete state's lone
description key survives a concrete refresh sequence that never mentions
it. -/
theorem C9_desc_pool_lww_grow_only_witness :
    mapGet "ups.id" (mapInsert "ups.id" "V2" (mapInsert "ups.id" "V1" []))
      = some "V2" ∧
    (mapGet "old.key" (([((5 : Nat), ("myups", [cmdSelfTest]))].foldl
      (fun s op => apply_refresh op.1 s op.2.1 op.2.2) stateEx)).shared_desc).isSome := by
  have h := C9_desc_pool_lww_grow_only [] "ups.id" "V1" "V2" stateEx
  exact ⟨h.1, h.2.1 [((5 : Nat), ("myups", [cmdSelfTest]))] "old.key" (by decide)⟩

/-- C6: a successful refresh replaces the device's cache entry wholesale
with a new `CommandsCacheEntry` stamped at the refresh instant, and sets
the device's command-id set (when the device is registered) to exactly the
ids of the refreshed commands — a full replace that can shrink or grow the
set, never a union with the prior set. -/
theorem C6_refresh_full_replace (classify : ErrorKind → ProblemDetail)
    (cfg : AppConfig) (net : NetOracle) (now : Nat) (state : ServerState)
    (ups_name : UpsName) (u p : String) (cmds : List InstCmd)
    (hu : cfg.upsd.user = some u) (hp : cfg.upsd.pass = some p)
    (hc : net.connectResult = none) (hl : net.listResult = .ok cmds) :
    (update_commands classify cfg net now state ups_name).result = .ok cmds ∧
    (update_commands classify cfg net now state ups_name).state
      = apply_refresh now state ups_name cmds ∧
    mapGet ups_name (apply_refresh now state ups_name cmds).commands_cache
      = some ⟨now, cmds⟩ ∧
    (∀ d, mapGet ups_name state.devices = some d →
      mapGet ups_name (apply_refresh now state ups_name cmds).devices
        = some { d with commands := cmds.map InstCmd.id }) := by
  have hrun : update_commands classify cfg net now state ups_name
      = ⟨.ok cmds, apply_refresh now state ups_name cmds, ⟨1, 1, 0, 0, 0, 1⟩⟩ := by
    simp [update_commands, hu, hp, hc, hl]
  refine ⟨by rw [hrun], by rw [hrun], ?_, ?_⟩
  · simp [apply_refresh]
  · intro d hd
    simp [apply_refresh, hd]

/-- Closed witness for C6: refreshing the concrete device at instant 50
returns the listed commands, stamps the cache entry at 50, and replaces the
command-id set with exactly the refreshed id. -/
theorem C6_refresh_full_replace_witness :
    (update_commands classifyEx cfgFull netOk 50 stateEx "myups").result
      = .ok [cmdSelfTest] ∧
    mapGet "myups"
        ((update_commands classifyEx cfgFull netOk 50 stateEx "myups").state).commands_cache
      = some ⟨50, [cmdSelfTest]⟩ ∧
    mapGet "myups"
        ((update_commands classifyEx cfgFull netOk 50 stateEx "myups").state).devices
      = some { deviceEx with commands := ["test.battery.start"] } := by
  have h := C6_refresh_full_replace classifyEx cfgFull netOk 50 stateEx "myups"
    "admin" "secret" [cmdSelfTest] rfl rfl rfl rfl
  refine ⟨h.1, ?_, ?_⟩
  · rw [h.2.1]; exact h.2.2.1
  · rw [h.2.1]; exact h.2.2.2 deviceEx (by decide)

/-- C1 counterexample: with the password absent, a forced command-list
refresh through the json-layer cache (`get_commands_cached`) does NOT fail
with the authorization-configuration problem: it completes with an
ordinary, empty command list — its result type has no error channel at all
— although it does make zero Protocol Client calls. -/
theorem C1_counterexample :
    get_commands_cached cfgNoPass netOk 0 [] "myups" true
      = ⟨[], [], NetCalls.zero⟩ := rfl

/-- C1 amended: when the configured username or password is absent, every
daemon-facing operation makes zero Protocol Client calls (no connect
attempt); `update_commands`, `post_command`, `patch_var`, `post_fsd` and
`get_instcmds` (when listing is enabled) fail immediately with the
authorization-configuration problem ("Insufficient upsd configuration",
status 401 unauthorized), while the json-layer command refresh instead
returns an empty command list with its cache untouched and no error. -/
theorem C1_missing_credentials (classify : ErrorKind → ProblemDetail)
    (cfg : AppConfig) (net : NetOracle) (now : Nat) (state : ServerState)
    (cache : JsonCmdCache) (ups_name : UpsName) (cmd : CmdName)
    (var_name : VarName) (value : Value)
    (h : cfg.upsd.user = none ∨ cfg.upsd.pass = none) :
    insufficientConfig.title = "Insufficient upsd configuration" ∧
    insufficientConfig.status = 401 ∧
    update_commands classify cfg net now state ups_name
      = ⟨.error insufficientConfig, state, NetCalls.zero⟩ ∧
    post_command classify cfg net state ups_name cmd
      = ⟨.error insufficientConfig, state, NetCalls.zero⟩ ∧
    patch_var classify cfg net state ups_name var_name value
      = ⟨.error insufficientConfig, state, NetCalls.zero⟩ ∧
    post_fsd classify cfg net state ups_name
      = ⟨.error insufficientConfig, state, NetCalls.zero⟩ ∧
    (cfg.allow_instcmds_list = true →
      get_instcmds classify cfg net ups_name
        = (.error insufficientConfig, NetCalls.zero)) ∧
    get_commands_cached_refresh cfg net now cache ups_name
      = ⟨[], cache, NetCalls.zero⟩ ∧
    get_commands_cached cfg net now cache ups_name true
      = ⟨[], cache, NetCalls.zero⟩ := by
  obtain ⟨⟨addr, u, p⟩, ttl, allow⟩ := cfg
  rcases h with h | h <;> subst h
  · cases p <;>
      exact ⟨rfl, rfl, rfl, rfl, rfl, rfl, fun ha => by subst ha; rfl, rfl, rfl⟩
  · cases u <;>
      exact ⟨rfl, rfl, rfl, rfl, rfl, rfl, fun ha => by subst ha; rfl, rfl, rfl⟩

/-- Closed witness for C1 amended, at the password-less configuration. -/
theorem C1_missing_credentials_witness :
    (cfgNoPass.upsd.user = none ∨ cfgNoPass.upsd.pass = none) ∧
    update_commands classifyEx cfgNoPass netOk 0 stateEx "myups"
      = ⟨.error insufficientConfig, stateEx, NetCalls.zero⟩ ∧
    post_fsd classifyEx cfgNoPass netOk stateEx "myups"
      = ⟨.error insufficientConfig, stateEx, NetCalls.zero⟩ := by
  have h := C1_missing_credentials classifyEx cfgNoPass netOk 0 stateEx []
    "myups" "test.battery.start" "ups.id" (.Text "x") (Or.inr rfl)
  exact ⟨Or.inr rfl, h.2.2.1, h.2.2.2.2.2.1⟩

/-- C4 counterexample: with a stale json-cache entry holding one command, a
refresh whose `list_instcmds` request fails does NOT leave the previously
cached data untouched — it replaces the entry with an empty list stamped
one second ahead. -/
theorem C4_counterexample :
    get_commands_cached cfgFull netListFail 10 [("myups", (5, [cmdSelfTest]))]
        "myups" false
      = ⟨[], [("myups", (11, []))], ⟨1, 1, 0, 0, 0, 1⟩⟩ := rfl

/-- C4 amended: a failed refresh through the shared store
(`update_commands`) leaves the entire server state — in particular every
cached `CommandsCacheEntry` — completely unchanged, for connection and for
command-list failures alike; the json-layer refresh leaves its cache
unchanged on a connection failure, but on a command-list request failure it
replaces the device's entry with an empty list stamped `now + 1`. -/
theorem C4_failed_refresh_cache (classify : ErrorKind → ProblemDetail)
    (cfg : AppConfig) (net : NetOracle) (now : Nat) (state : ServerState)
    (cache : JsonCmdCache) (ups_name : UpsName) :
    (∀ prob, (update_commands classify cfg net now state ups_name).result = .error prob →
      (update_commands classify cfg net now state ups_name).state = state) ∧
    (∀ err, net.connectResult = some err →
      (get_commands_cached_refresh cfg net now cache ups_name).cache = cache) ∧
    (∀ err u p, cfg.upsd.user = some u → cfg.upsd.pass = some p →
      net.connectResult = none → net.listResult = .error err →
      (get_commands_cached_refresh cfg net now cache ups_name).cache
        = mapInsert ups_name (now + 1, []) cache) := by
  refine ⟨?_, ?_, ?_⟩
  · intro prob hp
    rcases hcp : cfg.upsd.pass with _ | pw <;> rcases hcu : cfg.upsd.user with _ | us
    · simp [update_commands, hcp, hcu]
    · simp [update_commands, hcp, hcu]
    · simp [update_commands, hcp, hcu]
    · rcases hc : net.connectResult with _ | err
      · rcases hl : net.listResult with err2 | cmds
        · simp [update_commands, hcp, hcu, hc, hl]
        · rw [update_commands] at hp
          simp [hcp, hcu, hc, hl] at hp
      · simp [update_commands, hcp, hcu, hc]
  · intro err h
    rcases hcu : cfg.upsd.user with _ | us <;> rcases hcp : cfg.upsd.pass with _ | pw <;>
      simp [get_commands_cached_refresh, hcu, hcp, h]
  · intro err u p hu hp hc hl
    simp [get_commands_cached_refresh, hu, hp, hc, hl]

/-- Closed witness for C4 amended: a concrete connection failure leaves
both the shared store and the json cache exactly as they were. -/
theorem C4_failed_refresh_cache_witness :
    (update_commands classifyEx cfgFull netConnFail 7 stateEx "myups").state
      = stateEx ∧
    (get_commands_cached_refresh cfgFull netConnFail 7
        [("myups", (5, [cmdSelfTest]))] "myups").cache
      = [("myups", (5, [cmdSelfTest]))] := by
  have h := C4_failed_refresh_cache classifyEx cfgFull netConnFail 7 stateEx
    [("myups", (5, [cmdSelfTest]))] "myups"
  exact ⟨h.1 (ProblemDetail.new "UPS daemon unreachable" 502) rfl,
    h.2.1 (.ioError 0) rfl⟩

/-- C3 counterexample: against the declared `String{max_len := 5}` of
`ups.id`, the value " abcd " has original (untrimmed) length 6 > 5, so per
the claim it must be rejected with the limit stated; the validator ACCEPTS
it, because the code measures the TRIMMED value's length (4). -/
theorem C3_counterexample :
    (Value.Text " abcd ").as_str.length = 6 ∧
    mapGet "ups.id" deviceEx.rw_variables = some (.Str 5) ∧
    patch_var_validate stateEx "myups" "ups.id" (.Text " abcd ") = .ok () :=
  ⟨rfl, rfl, rfl⟩

/-- C3 amended: for a variable declared `String{max_len}`, a non-text value
is rejected with the type-mismatch problem naming the variable; a text
value that is empty after trimming is rejected as "Empty value"; a text
value whose length, measured on the TRIMMED value, exceeds `max_len` is
rejected with the limit stated; every other text value is accepted. -/
theorem C3_string_validation (state : ServerState) (ups_name : UpsName)
    (var_name : VarName) (d : DeviceEntry) (max_len : Nat) (value : Value)
    (hd : mapGet ups_name state.devices = some d)
    (hv : mapGet var_name d.rw_variables = some (.Str max_len)) :
    (value.is_text = false →
      patch_var_validate state ups_name var_name value
        = .error ((ProblemDetail.new "Invalid value type" 400).with_detail
            ("'" ++ var_name
              ++ "' expects a string type, but the provided value is not a string."))) ∧
    (∀ s, value = .Text s → strIsEmpty (strTrim s) = true →
      patch_var_validate state ups_name var_name value
        = .error ((ProblemDetail.new "Empty value" 400).with_detail
            "Value cannot be empty or consist of only whitespaces.")) ∧
    (∀ s, value = .Text s → strIsEmpty (strTrim s) = false → (strTrim s).length > max_len →
      patch_var_validate state ups_name var_name value
        = .error ((ProblemDetail.new "Out of range" 400).with_detail
            ("Maximum allowed string length is " ++ toString max_len ++ "."))) ∧
    (∀ s, value = .Text s → strIsEmpty (strTrim s) = false → (strTrim s).length ≤ max_len →
      patch_var_validate state ups_name var_name value = .ok ()) := by
  refine ⟨?_, ?_, ?_, ?_⟩
  · intro ht
    cases value with
    | Num q => simp [patch_var_validate, hd, hv, Value.is_text]
    | Text s => simp [Value.is_text] at ht
  · intro s hs hempty
    subst hs
    simp [patch_var_validate, hd, hv, Value.is_text, Value.as_str, hempty]
  · intro s hs hempty hlen
    subst hs
    simp [patch_var_validate, hd, hv, Value.is_text, Value.as_str, hempty, hlen]
  · intro s hs hempty hlen
    subst hs
    have hnot : ¬ (strTrim s).length > max_len := by omega
    simp [patch_var_validate, hd, hv, Value.is_text, Value.as_str, hempty, hnot]

/-- Closed witness for C3 amended: "   " trims to empty and is rejected;
"foo bar" (trimmed length 7 > 5) is rejected with the limit stated; "abc"
is accepted. -/
theorem C3_string_validation_witness :
    patch_var_validate stateEx "myups" "ups.id" (.Text "   ")
      = .error ((ProblemDetail.new "Empty value" 400).with_detail
          "Value cannot be empty or consist of only whitespaces.") ∧
    patch_var_validate stateEx "myups" "ups.id" (.Text "foo bar")
      = .error ((ProblemDetail.new "Out of range" 400).with_detail
          "Maximum allowed string length is 5.") ∧
    patch_var_validate stateEx "myups" "ups.id" (.Text "abc") = .ok () := by
  refine ⟨?_, ?_, ?_⟩
  · exact (C3_string_validation stateEx "myups" "ups.id" deviceEx 5
      (.Text "   ") rfl rfl).2.1 "   " rfl (by decide)
  · exact (C3_string_validation stateEx "myups" "ups.id" deviceEx 5
      (.Text "foo bar") rfl rfl).2.2.1 "foo bar" rfl (by decide) (by decide)
  · exact (C3_string_validation stateEx "myups" "ups.id" deviceEx 5
      (.Text "abc") rfl rfl).2.2.2 "abc" rfl (by decide) (by decide)

/-- C7: for a variable declared `Range{min, max}`, a non-numeric value is
rejected with the type-mismatch problem; a numeric value against a bound
not representable as a number yields the server-side "Malformed driver
response" (status 500) rather than a client error; with both bounds
numeric, the value is accepted exactly when `min ≤ value ≤ max` inclusive,
and rejected with the bounds stated otherwise. -/
theorem C7_range_validation (state : ServerState) (ups_name : UpsName)
    (var_name : VarName) (d : DeviceEntry) (mn mx : Value) (value : Value)
    (hd : mapGet ups_name state.devices = some d)
    (hv : mapGet var_name d.rw_variables = some (.Range mn mx)) :
    (value.is_numeric = false →
      patch_var_validate state ups_name var_name value
        = .error ((ProblemDetail.new "Invalid value type" 400).with_detail
            ("'" ++ var_name ++ "' expects a numeric value between " ++ mn.display
              ++ " and " ++ mx.display
              ++ ", but the provided value is not a number."))) ∧
    (value.is_numeric = true →
      (mn.as_lossly_f64 = none ∨ mx.as_lossly_f64 = none) →
      patch_var_validate state ups_name var_name value
        = .error ((ProblemDetail.new "Malformed driver response" 500).with_detail
            "Cannot process request since the reported min-max values by ups device are not number.")) ∧
    (∀ a b q, value.is_numeric = true → mn.as_lossly_f64 = some a →
      mx.as_lossly_f64 = some b → value.as_lossly_f64 = some q →
      (a ≤ q ∧ q ≤ b →
        patch_var_validate state ups_name var_name value = .ok ()) ∧
      (¬(a ≤ q ∧ q ≤ b) →
        patch_var_validate state ups_name var_name value
          = .error ((ProblemDetail.new "Out of range" 400).with_detail
              ("'" ++ var_name ++ "' is not within the acceptable range ["
                ++ toString a ++ ", " ++ toString b ++ "]")))) := by
  refine ⟨?_, ?_, ?_⟩
  · intro hn
    simp [patch_var_validate, hd, hv, hn]
  · intro hn hnone
    rcases ha : mn.as_lossly_f64 with _ | a
    · simp [patch_var_validate, hd, hv, hn, ha]
    · rcases hb : mx.as_lossly_f64 with _ | b
      · simp [patch_var_validate, hd, hv, hn, ha, hb]
      · rcases hnone with h0 | h0
        · rw [ha] at h0; exact absurd h0 (by simp)
        · rw [hb] at h0; exact absurd h0 (by simp)
  · intro a b q hn ha hb hq
    constructor
    · intro hin
      simp [patch_var_validate, hd, hv, hn, ha, hb, hq, hin]
    · intro hout
      simp [patch_var_validate, hd, hv, hn, ha, hb, hq, hout]

/-- Closed witness for C7: 220 is inside [90, 280] and accepted; 300 is
outside and rejected with the bounds stated; a text lower bound makes a
numeric write yield the malformed-driver problem. -/
theorem C7_range_validation_witness :
    patch_var_validate stateEx "myups" "input.voltage" (.Num 220) = .ok () ∧
    patch_var_validate stateEx "myups" "input.voltage" (.Num 300)
      = .error ((ProblemDetail.new "Out of range" 400).with_detail
          "'input.voltage' is not within the acceptable range [90, 280]") ∧
    patch_var_validate stateEx "myups" "battery.charge.low" (.Num 10)
      = .error ((ProblemDetail.new "Malformed driver response" 500).with_detail
          "Cannot process request since the reported min-max values by ups device are not number.") := by
  refine ⟨?_, ?_, ?_⟩
  · exact ((C7_range_validation stateEx "myups" "input.voltage" deviceEx
      (.Num 90) (.Num 280) (.Num 220) rfl rfl).2.2 90 280 220
      rfl rfl rfl rfl).1 (by decide)
  · exact ((C7_range_validation stateEx "myups" "input.voltage" deviceEx
      (.Num 90) (.Num 280) (.Num 300) rfl rfl).2.2 90 280 300
      rfl rfl rfl rfl).2 (by decide)
  · exact (C7_range_validation stateEx "myups" "battery.charge.low" deviceEx
      (.Text "n/a") (.Num 20) (.Num 10) rfl rfl).2.1 rfl (Or.inl rfl)

/-- C2: every Protocol Client failure is translated by one fixed mapping,
identically at every call site: the two duplicated inline matches
(`update_commands`, `get_instcmds`) and the `?`-site conversion agree on
every error kind; access-denied yields "Access denied" (401 unauthorized),
unknown-device yields "Device not found" (404), I/O failure or request
timeout yields "UPS daemon unreachable" (502 upstream-unavailable), and
every other kind passes through the underlying error's own classification;
and each operation's result on a client failure is exactly the mapped
problem, whichever operation triggered it. -/
theorem C2_error_translation (classify : ErrorKind → ProblemDetail)
    (e : ErrorKind) (cfg : AppConfig) (net : NetOracle) (now : Nat)
    (state : ServerState) (ups_name : UpsName) (d : DeviceEntry)
    (cmd : CmdName) (var_name : VarName) (value : Value) (u p : String)
    (hu : cfg.upsd.user = some u) (hp : cfg.upsd.pass = some p)
    (hallow : cfg.allow_instcmds_list = true)
    (hd : mapGet ups_name state.devices = some d)
    (hcmd : cmd ∈ d.commands)
    (hval : patch_var_validate state ups_name var_name value = .ok ()) :
    update_commands_err_map classify e = get_instcmds_err_map classify e ∧
    update_commands_err_map classify e = problemFromError classify e ∧
    update_commands_err_map classify (.protocolError .accessDenied)
      = ProblemDetail.new "Access denied" 401 ∧
    update_commands_err_map classify (.protocolError .unknownUps)
      = ProblemDetail.new "Device not found" 404 ∧
    (∀ t, update_commands_err_map classify (.ioError t)
      = ProblemDetail.new "UPS daemon unreachable" 502) ∧
    update_commands_err_map classify .requestTimeout
      = ProblemDetail.new "UPS daemon unreachable" 502 ∧
    (∀ t, update_commands_err_map classify (.other t) = classify (.other t)) ∧
    (∀ t, update_commands_err_map classify (.protocolError (.other t))
      = classify (.protocolError (.other t))) ∧
    (net.connectResult = some e →
      (update_commands classify cfg net now state ups_name).result
        = .error (update_commands_err_map classify e) ∧
      (get_instcmds classify cfg net ups_name).1
        = .error (get_instcmds_err_map classify e) ∧
      (post_command classify cfg net state ups_name cmd).result
        = .error (problemFromError classify e) ∧
      (patch_var classify cfg net state ups_name var_name value).result
        = .error (problemFromError classify e) ∧
      (post_fsd classify cfg net state ups_name).result
        = .error (problemFromError classify e)) ∧
    (net.connectResult = none →
      (net.listResult = .error e →
        (update_commands classify cfg net now state ups_name).result
          = .error (update_commands_err_map classify e) ∧
        (get_instcmds classify cfg net ups_name).1
          = .error (get_instcmds_err_map classify e)) ∧
      (net.instcmdResult = some e →
        (post_command classify cfg net state ups_name cmd).result
          = .error (problemFromError classify e)) ∧
      (net.setVarResult = some e →
        (patch_var classify cfg net state ups_name var_name value).result
          = .error (problemFromError classify e)) ∧
      (net.fsdResult = some e →
        (post_fsd classify cfg net state ups_name).result
          = .error (problemFromError classify e))) := by
  have hmaps : ∀ e0 : ErrorKind,
      update_commands_err_map classify e0 = get_instcmds_err_map classify e0 ∧
      update_commands_err_map classify e0 = problemFromError classify e0 := by
    intro e0
    cases e0 with
    | protocolError pe => cases pe <;> exact ⟨rfl, rfl⟩
    | ioError t => exact ⟨rfl, rfl⟩
    | requestTimeout => exact ⟨rfl, rfl⟩
    | other t => exact ⟨rfl, rfl⟩
  have hreq : require_auth_config cfg.upsd = .ok (cfg.upsd.addr, u, p) := by
    simp [require_auth_config, hu, hp]
  refine ⟨(hmaps e).1, (hmaps e).2, rfl, rfl, fun t => rfl, rfl, fun t => rfl,
    fun t => rfl, ?_, ?_⟩
  · intro hc
    refine ⟨?_, ?_, ?_, ?_, ?_⟩
    · simp [update_commands, hu, hp, hc]
    · simp [get_instcmds, hallow, hreq, hc]
    · simp [post_command, hreq, hd, hcmd, hc]
    · simp [patch_var, hreq, hval, hc]
    · simp [post_fsd, hreq, hd, hc]
  · intro hc
    refine ⟨?_, ?_, ?_, ?_⟩
    · intro hl
      constructor
      · simp [update_commands, hu, hp, hc, hl]
      · simp [get_instcmds, hallow, hreq, hc, hl]
    · intro hi
      simp [post_command, hreq, hd, hcmd, hc, hi]
    · intro hs
      simp [patch_var, hreq, hval, hc, hs]
    · intro hf
      simp [post_fsd, hreq, hd, hc, hf]

/-- Closed witness for C2: a concrete access-denied connect failure yields
the "Access denied" problem from the shared-store refresh and from the
forced-shutdown handler alike. -/
theorem C2_error_translation_witness :
    (update_commands classifyEx cfgFull netAccessDenied 0 stateEx "myups").result
      = .error (ProblemDetail.new "Access denied" 401) ∧
    (post_fsd classifyEx cfgFull netAccessDenied stateEx "myups").result
      = .error (ProblemDetail.new "Access denied" 401) ∧
    (get_instcmds classifyEx cfgFull netAccessDenied "myups").1
      = .error (ProblemDetail.new "Access denied" 401) := by
  have h := C2_error_translation classifyEx (.protocolError .accessDenied)
    cfgFull netAccessDenied 0 stateEx "myups" deviceEx "test.battery.start"
    "input.voltage" (.Num 220) "admin" "secret" rfl rfl rfl (by decide)
    (by decide) rfl
  have hc := h.2.2.2.2.2.2.2.2.1 rfl
  exact ⟨hc.1, hc.2.2.2.2, hc.2.1⟩

end NutWebgui
